import Mathlib

/-!
Verification of the incremental indexing and retrieval pipeline of the
OFFLINE-RAG repository (src/app/indexer.py, src/app/main.py, src/app/config.py).

The Python functions are shallowly embedded as pure Lean functions.  The
filesystem under the data directory is modelled as a list of entries (in the
sorted order produced by `sorted(Path(data_dir).rglob("*"))`); what the
various `read_text` / `PdfReader` calls would observe for each file is part of
the entry.  The external vector store (Chroma) and the external text splitter
are out-of-scope collaborators in the spec; the store's `from_documents` is
modelled per its declared contract (a brand-new index is written from exactly
the supplied chunks) and the splitter is an arbitrary deterministic function
parameter.
-/

set_option autoImplicit false

namespace OfflineRag

/-- Whitespace characters removed by Python `str.strip()`. -/
def isPySpace (c : Char) : Bool :=
  c == ' ' || c == '\t' || c == '\n' || c == '\r' || c == '\x0b' || c == '\x0c'

/-- Leading and trailing whitespace removal on a character list. -/
def pyStrip (cs : List Char) : List Char :=
  ((cs.dropWhile isPySpace).reverse.dropWhile isPySpace).reverse

/-- Python `str.strip()`. -/
def strip (s : String) : String := String.mk (pyStrip s.toList)

/-- Splitting a character list on the path separator. -/
def splitOnSlash : List Char → List (List Char)
  | [] => [[]]
  | c :: rest =>
    let r := splitOnSlash rest
    if c = '/' then [] :: r
    else
      match r with
      | [] => [[c]]
      | h :: t => (c :: h) :: t

/-- Final path component of a path string, like Python `Path(p).name`. -/
def pathName (p : String) : String := String.mk ((splitOnSlash p.toList).getLastD [])

/-- Lexicographic code-point comparison of character lists, the order Python
string comparison and `sorted` use. -/
def lexLt : List Char → List Char → Bool
  | [], [] => false
  | [], _ :: _ => true
  | _ :: _, [] => false
  | a :: as, b :: bs =>
    if a.val < b.val then true
    else if b.val < a.val then false
    else lexLt as bs

/-- Python string comparison. -/
def strLt (a b : String) : Bool := lexLt a.toList b.toList

/-- Python `str.lower()`. -/
def lowerStr (s : String) : String := String.mk (s.toList.map Char.toLower)

/-- Helper for `pySuffix`: the segment of the name starting at the last dot,
or `none` when the list has no dot. -/
def suffixAux : List Char → Option (List Char)
  | [] => none
  | c :: rest =>
    match suffixAux rest with
    | some s => some s
    | none => if c = '.' then some (c :: rest) else none

/-- Extension of a file name, like Python `Path(p).suffix`: the part of the
final component from its last dot on, empty when there is no dot or the only
dot is the leading character (the Python implementation requires the dot index
to be positive). -/
def pySuffix (name : String) : String :=
  match name.toList with
  | [] => ""
  | _ :: rest =>
    match suffixAux rest with
    | some s => String.mk s
    | none => ""

/-- What the extraction pass can observe about one file's bytes:
the result of `read_text(encoding="utf-8")` (`none` models a decode error),
the result of `read_text(encoding="latin-1")` (total: latin-1 decodes any
byte), and the result of running `PdfReader` page extraction (`Except.error`
models a raised exception, `Except.ok` the pages joined with blank lines). -/
structure FileData where
  utf8 : Option String
  latin1 : String
  pdf : Except String String
  deriving Repr

/-- One entry yielded by `Path(data_dir).rglob("*")`: its path string, whether
`is_file()` holds, its integer mtime, and its observable content. -/
structure FsEntry where
  path : String
  isFile : Bool
  mtime : Int
  data : FileData
  deriving Repr

/-- Lightweight document, as in indexer.py: `page_content` plus the
`source` path stored in its metadata. -/
structure Document where
  page_content : String
  source : String
  deriving Repr, DecidableEq

/-- Reading a text file as in indexer.py lines 29-32: UTF-8, falling back to
latin-1 when UTF-8 decoding fails. -/
def readTextFile (d : FileData) : String := d.utf8.getD d.latin1

/-- Processing of a single regular file by `load_local_documents`
(indexer.py lines 27-50): dispatch on the lowered suffix; text-like files
always produce a document; PDFs with a reader produce a document unless the
stripped extracted text is shorter than 100 characters (skipped) — an
extraction exception produces a placeholder document; PDFs without a reader
produce a placeholder document; other suffixes produce nothing.
`pdfAvail` models the `if PdfReader:` import guard. -/
def extractOne (pdfAvail : Bool) (e : FsEntry) : Option Document :=
  let suffix := lowerStr (pySuffix (pathName e.path))
  if suffix = ".txt" ∨ suffix = ".md" ∨ suffix = ".html" then
    some ⟨readTextFile e.data, e.path⟩
  else if suffix = ".pdf" then
    if pdfAvail then
      match e.data.pdf with
      | .ok text =>
        if (strip text).length < 100 then none
        else some ⟨text, e.path⟩
      | .error msg =>
        some ⟨"[Failed to extract PDF " ++ e.path ++ ": " ++ msg ++ "]", e.path⟩
    else
      some ⟨"[pypdf not installed; cannot extract PDF " ++ e.path ++ "]", e.path⟩
  else none

/-- The function `load_local_documents` of indexer.py lines 22-51: iterate the
sorted recursive listing, skip non-files, and collect the documents produced
per file. -/
def load_local_documents (pdfAvail : Bool) (fs : List FsEntry) : List Document :=
  (fs.filter (fun e => e.isFile)).filterMap (extractOne pdfAvail)

/-- Lookup in a manifest association list (first match), mirroring Python
dict access for the manifests handled here. -/
def mlookup (k : String) : List (String × Int) → Option Int
  | [] => none
  | kv :: rest => if kv.1 = k then some kv.2 else mlookup k rest

/-- Python dict equality for manifests: same keys with the same values in
both directions. -/
def dictEq (a b : List (String × Int)) : Bool :=
  a.all (fun kv => mlookup kv.1 b = some kv.2) &&
    b.all (fun kv => mlookup kv.1 a = some kv.2)

/-- State of the persisted manifest.json: absent, unreadable-or-corrupt, or
holding a stored mapping. -/
inductive ManifestFile where
  | missing
  | corrupt
  | stored (m : List (String × Int))
  deriving Repr, DecidableEq

/-- The function `_read_manifest` of indexer.py lines 75-80: any exception
(missing file, unreadable file, invalid JSON) yields the empty mapping. -/
def read_manifest : ManifestFile → List (String × Int)
  | .stored m => m
  | _ => []

/-- The function `_compute_manifest_from_files` of indexer.py lines 89-95:
one entry per regular file under the data directory, mapping its path string
to its integer mtime. -/
def compute_manifest_from_files (fs : List FsEntry) : List (String × Int) :=
  (fs.filter (fun e => e.isFile)).map (fun e => (e.path, e.mtime))

/-- The function `needs_reindex` of indexer.py lines 98-101: the stored
manifest differs (as a dict) from the freshly computed one. -/
def needs_reindex (mf : ManifestFile) (fs : List FsEntry) : Bool :=
  !dictEq (read_manifest mf) (compute_manifest_from_files fs)

/-- The function `build_index` of indexer.py lines 104-120.  `split` is the
external `RecursiveCharacterTextSplitter` pipeline, a deterministic pure
function; `prevIndex` is whatever index the persist directory held before the
call.  Per the out-of-scope vector-store contract (spec: a brand-new index is
written, replacing any existing one) `Chroma.from_documents` discards
`prevIndex` and stores exactly the splits.  The result is the new index
contents paired with the freshly persisted manifest; an empty document set
raises. -/
def build_index (split : List Document → List Document) (pdfAvail : Bool)
    (fs : List FsEntry) (prevIndex : List Document) :
    Except String (List Document × List (String × Int)) :=
  let docs := load_local_documents pdfAvail fs
  if docs.isEmpty then
    .error "No documents found to index. Add files in ./data/ and try again."
  else
    let _ := prevIndex
    .ok (split docs, compute_manifest_from_files fs)

/-- Projection of an index entry to its (source, content) pair. -/
def docPair (d : Document) : String × String := (d.source, d.page_content)

/-- Error surfaced by `load_or_build`: either an exception propagated raw
from an early `build_index` call, or the final aggregating `RuntimeError`
carrying every attempt's failure in order. -/
inductive LoadErr where
  | raw (e : String)
  | aggregated (es : List String)
  deriving Repr, DecidableEq

/-- Outcomes of the three `Chroma(...)` open attempts of indexer.py lines
145-167 for the existing persist directory, plus whether the directory
exists.  The handle type `H` abstracts over the opened vector store. -/
structure LoadEnv (H : Type) where
  dirExists : Bool
  openPrimary : Except String H
  openAlt : Except String H
  openNoEmbed : Except String H

/-- The function `load_or_build` of indexer.py lines 123-175.  `build` is the
outcome a `build_index` call would have.  A missing persist directory or a
stale manifest goes straight to `build_index` (whose exception, if any,
propagates raw); otherwise the three constructor patterns are attempted in
order, then a rebuild, and only when all four fail is the combined
`RuntimeError` raised with the accumulated `tried_errors`. -/
def load_or_build {H : Type} (env : LoadEnv H) (build : Except String H)
    (mf : ManifestFile) (fs : List FsEntry) : Except LoadErr H :=
  if !env.dirExists then build.mapError .raw
  else if needs_reindex mf fs then build.mapError .raw
  else
    match env.openPrimary with
    | .ok h => .ok h
    | .error e1 =>
      match env.openAlt with
      | .ok h => .ok h
      | .error e2 =>
        match env.openNoEmbed with
        | .ok h => .ok h
        | .error e3 =>
          match build with
          | .ok h => .ok h
          | .error e4 => .error (.aggregated [e1, e2, e3, e4])

/-- Insertion of a string into a sorted list, for the `sorted(...)` calls of
main.py (comparison by Python string order, modelled with String.lt). -/
def insertSorted (s : String) : List String → List String
  | [] => [s]
  | t :: rest => if strLt t s then t :: insertSorted s rest else s :: t :: rest

/-- Sorting a list of strings, for the `sorted(...)` calls of main.py. -/
def sortStrings : List String → List String
  | [] => []
  | s :: rest => insertSorted s (sortStrings rest)

/-- Diagnostics computed inside the `/query` handler (main.py lines 89-111):
the unique indexed-source basenames, the basenames of files under the data
directory, and the present-but-unindexed difference. -/
structure Diagnostics where
  all_sources : List String
  data_files : List String
  no_text_files : List String
  deriving Repr, DecidableEq

/-- Diagnostics computation of main.py lines 101-111.  `metaR` is the
outcome of `vector_store._collection.get(include=["metadatas"])`, as the list
of per-chunk `source` metadata values (`none` for a missing key); `filesR` is
the outcome of enumerating the data directory.  Either read failing degrades
its set to empty.  `all_sources` keeps the sorted unique basenames of truthy
sources; `data_files` the sorted basenames of regular files; `no_text_files`
(computed only when `data_files` is non-empty) the data files whose basename
is not among `all_sources`. -/
def computeDiagnostics (metaR : Except Unit (List (Option String)))
    (filesR : Except Unit (List FsEntry)) : Diagnostics :=
  let all_sources : List String :=
    match metaR with
    | .ok ms =>
      sortStrings ((((ms.filterMap id).filter (fun s => s ≠ "")).map pathName).dedup)
    | .error _ => []
  let data_files : List String :=
    match filesR with
    | .ok fsl => sortStrings ((fsl.filter (fun e => e.isFile)).map (fun e => pathName e.path))
    | .error _ => []
  let no_text_files : List String :=
    if data_files.isEmpty then []
    else data_files.filter (fun name => name ∉ all_sources)
  ⟨all_sources, data_files, no_text_files⟩

/-- One entry of the `sources` field of the query response: the chunk's
source and its snippet, per main.py lines 96-99: the page content stripped,
its newlines replaced by spaces, truncated to 800 characters. -/
def sourceEntry (d : Document) : String × String :=
  (d.source,
    String.mk (((pyStrip d.page_content.toList).map
      (fun c => if c = '\n' then ' ' else c)).take 800))

/-- Result of the RAG part of the `/query` handler: the per-chunk source
entries for the retrieved top-k documents, plus the diagnostics. -/
structure QueryResult where
  sources : List (String × String)
  diag : Diagnostics
  deriving Repr, DecidableEq

/-- The RAG branch of the `/query` handler (main.py lines 94-111):
`retrieved` is the list returned by `similarity_search`; the source entries
are built from it unconditionally, then diagnostics are computed with their
failures swallowed. -/
def runQuery (retrieved : List Document)
    (metaR : Except Unit (List (Option String)))
    (filesR : Except Unit (List FsEntry)) : QueryResult :=
  ⟨retrieved.map sourceEntry, computeDiagnostics metaR filesR⟩

/-- Splitter settings loaded by config.py lines 17-19. -/
structure Config where
  chunk_size : Int
  chunk_overlap : Int
  deriving Repr, DecidableEq

/-- Loading of the splitter settings (config.py lines 17-19):
`int(os.getenv("RAG_CHUNK_SIZE", 1000))` and
`int(os.getenv("RAG_CHUNK_OVERLAP", 200))`.  The environment values are the
already-parsed integers when the variables are set.  No validation of any
kind is performed; the function is total. -/
def loadConfig (sizeEnv overlapEnv : Option Int) : Config :=
  ⟨sizeEnv.getD 1000, overlapEnv.getD 200⟩

/-- Touching the file at path `p` so its modification time becomes `m`. -/
def setMtime (fs : List FsEntry) (p : String) (m : Int) : List FsEntry :=
  fs.map (fun e => if e.path = p then { e with mtime := m } else e)

/-- Observable content of a plain text file whose bytes decode as UTF-8. -/
def txtData (s : String) : FileData := ⟨some s, s, .error "PdfReader failed"⟩

/-- Observable content of a PDF whose page extraction succeeds with text `t`. -/
def pdfData (t : String) : FileData := ⟨none, "", .ok t⟩

/-- A 100-character extractable PDF text, long enough to be indexed. -/
def longPdfText : String := String.mk (List.replicate 100 'a')

/-- Sample root with two PDFs in different subdirectories sharing the
basename a.pdf: the first has ample text, the second too little. -/
def fsShadow : List FsEntry :=
  [⟨"x/a.pdf", true, 1, pdfData longPdfText⟩,
   ⟨"y/a.pdf", true, 2, pdfData "short"⟩]

/-- Index metadata after building `fsShadow`: one chunk from x/a.pdf. -/
def metaShadow : List (Option String) := [some "x/a.pdf"]

/-- Sample root with a text file and an image file: only the first
produces a Document, both are regular files. -/
def fsMixed : List FsEntry :=
  [⟨"a.txt", true, 3, txtData "hello"⟩,
   ⟨"b.png", true, 4, ⟨none, "img", .error "PdfReader failed"⟩⟩]

/-- Sample root holding a single indexable text file. -/
def fsOne : List FsEntry := [⟨"a.txt", true, 5, txtData "hello"⟩]

/-- Lookup in a manifest with no duplicate keys finds a member's value. -/
theorem mlookup_eq_some_of_mem {m : List (String × Int)} {k : String} {v : Int}
    (hnd : (m.map Prod.fst).Nodup) (hm : (k, v) ∈ m) : mlookup k m = some v := by
  induction m with
  | nil => cases hm
  | cons kv rest ih =>
    simp only [List.map_cons, List.nodup_cons] at hnd
    rcases List.mem_cons.mp hm with h | h
    · subst h
      simp [mlookup]
    · have hk : kv.1 ≠ k := fun hkk =>
        hnd.1 (hkk ▸ List.mem_map.mpr ⟨(k, v), h, rfl⟩)
      simp only [mlookup, if_neg hk]
      exact ih hnd.2 h

/-- Lookup of an absent key yields none. -/
theorem mlookup_eq_none_of_not_mem {m : List (String × Int)} {k : String}
    (h : k ∉ m.map Prod.fst) : mlookup k m = none := by
  induction m with
  | nil => rfl
  | cons kv rest ih =>
    simp only [List.map_cons, List.mem_cons, not_or] at h
    have hk : ¬kv.1 = k := fun hh => h.1 hh.symm
    simp only [mlookup, if_neg hk]
    exact ih h.2

/-- Dict equality is reflexive on manifests with no duplicate keys. -/
theorem dictEq_self {m : List (String × Int)} (hnd : (m.map Prod.fst).Nodup) :
    dictEq m m = true := by
  simp only [dictEq, Bool.and_eq_true, List.all_eq_true, decide_eq_true_eq]
  exact ⟨fun kv hkv => mlookup_eq_some_of_mem hnd hkv,
    fun kv hkv => mlookup_eq_some_of_mem hnd hkv⟩

/-- Dict equality fails when some left entry is not mirrored on the right. -/
theorem dictEq_eq_false_left {a b : List (String × Int)} {kv : String × Int}
    (h : kv ∈ a) (hne : mlookup kv.1 b ≠ some kv.2) : dictEq a b = false := by
  apply Bool.eq_false_iff.mpr
  intro htrue
  simp only [dictEq, Bool.and_eq_true, List.all_eq_true, decide_eq_true_eq] at htrue
  exact hne (htrue.1 kv h)

/-- Dict equality fails when some right entry is not mirrored on the left. -/
theorem dictEq_eq_false_right {a b : List (String × Int)} {kv : String × Int}
    (h : kv ∈ b) (hne : mlookup kv.1 a ≠ some kv.2) : dictEq a b = false := by
  apply Bool.eq_false_iff.mpr
  intro htrue
  simp only [dictEq, Bool.and_eq_true, List.all_eq_true, decide_eq_true_eq] at htrue
  exact hne (htrue.2 kv h)

/-- Manifest keys are exactly the paths of the regular files, in order. -/
theorem manifest_keys (fs : List FsEntry) :
    (compute_manifest_from_files fs).map Prod.fst
      = (fs.filter (fun e => e.isFile)).map (fun e => e.path) := by
  simp [compute_manifest_from_files, List.map_map, Function.comp]

/-- Every regular file contributes its (path, mtime) entry to the manifest. -/
theorem mem_manifest_of_file {fs : List FsEntry} {e : FsEntry}
    (he : e ∈ fs) (hf : e.isFile = true) :
    (e.path, e.mtime) ∈ compute_manifest_from_files fs :=
  List.mem_map.mpr ⟨e, List.mem_filter.mpr ⟨he, hf⟩, rfl⟩

/-- Unfolding of the manifest computation over a cons cell. -/
theorem cm_cons (e : FsEntry) (rest : List FsEntry) :
    compute_manifest_from_files (e :: rest)
      = if e.isFile then
          (e.path, e.mtime) :: compute_manifest_from_files rest
        else compute_manifest_from_files rest := by
  by_cases hf : e.isFile = true <;>
    simp [compute_manifest_from_files, List.filter_cons, hf]

/-- Touching one path rewrites exactly that key's manifest value. -/
theorem manifest_setMtime (fs : List FsEntry) (p : String) (m : Int) :
    compute_manifest_from_files (setMtime fs p m)
      = (compute_manifest_from_files fs).map
          (fun kv => if kv.1 = p then (kv.1, m) else kv) := by
  induction fs with
  | nil => rfl
  | cons e rest ih =>
    have hstep : setMtime (e :: rest) p m
        = (if e.path = p then { e with mtime := m } else e) :: setMtime rest p m := rfl
    rw [hstep]
    by_cases hp : e.path = p <;> by_cases hf : e.isFile = true <;>
      simp [cm_cons, hp, hf, ih]

/-- Lookup of the touched key after the rewrite yields the new value. -/
theorem mlookup_map_set {m : List (String × Int)} {p : String} {v : Int} :
    mlookup p (m.map (fun kv => if kv.1 = p then (kv.1, v) else kv))
      = (mlookup p m).map (fun _ => v) := by
  induction m with
  | nil => rfl
  | cons kv rest ih =>
    by_cases h : kv.1 = p
    · simp [mlookup, h]
    · simp [mlookup, h, ih]

/-- A successful build stores exactly the freshly computed manifest. -/
theorem build_index_manifest {split : List Document → List Document}
    {pdfAvail : Bool} {fs : List FsEntry} {prev idx : List Document}
    {man : List (String × Int)}
    (hb : build_index split pdfAvail fs prev = .ok (idx, man)) :
    man = compute_manifest_from_files fs := by
  unfold build_index at hb
  by_cases hd : (load_local_documents pdfAvail fs).isEmpty
  · simp [hd] at hb
  · simp [hd] at hb
    exact hb.2.symm

/-- C3: immediately after a successful `build_index` over a root with no
further filesystem change, `needs_reindex` is false; it is true after any
file's modification time is changed, after a new file is added, and after a
file is removed. -/
theorem needs_reindex_tracks_changes
    (split : List Document → List Document) (pdfAvail : Bool)
    (fs : List FsEntry) (prev idx : List Document) (man : List (String × Int))
    (hnd : ((fs.filter (fun e => e.isFile)).map (fun e => e.path)).Nodup)
    (hb : build_index split pdfAvail fs prev = .ok (idx, man)) :
    needs_reindex (.stored man) fs = false ∧
    (∀ e ∈ fs, e.isFile = true → ∀ m : Int, m ≠ e.mtime →
      needs_reindex (.stored man) (setMtime fs e.path m) = true) ∧
    (∀ newE : FsEntry, newE.isFile = true →
      newE.path ∉ fs.map (fun x => x.path) →
      needs_reindex (.stored man) (fs ++ [newE]) = true) ∧
    (∀ e ∈ fs, e.isFile = true →
      needs_reindex (.stored man) (fs.filter (fun x => x.path ≠ e.path)) = true) := by
  have hman : man = compute_manifest_from_files fs := build_index_manifest hb
  subst hman
  have hndk : ((compute_manifest_from_files fs).map Prod.fst).Nodup := by
    rw [manifest_keys]; exact hnd
  refine ⟨?_, ?_, ?_, ?_⟩
  · simp [needs_reindex, read_manifest, dictEq_self hndk]
  · intro e he hf m hm
    have hmem : (e.path, e.mtime) ∈ compute_manifest_from_files fs :=
      mem_manifest_of_file he hf
    have hlook : mlookup e.path
        (compute_manifest_from_files (setMtime fs e.path m)) = some m := by
      rw [manifest_setMtime, mlookup_map_set, mlookup_eq_some_of_mem hndk hmem]
      rfl
    have hfalse : dictEq (compute_manifest_from_files fs)
        (compute_manifest_from_files (setMtime fs e.path m)) = false :=
      dictEq_eq_false_left hmem (by rw [hlook]; simpa using fun hc => hm hc)
    simp [needs_reindex, read_manifest, hfalse]
  · intro newE hnf hnp
    have hmemb : (newE.path, newE.mtime)
        ∈ compute_manifest_from_files (fs ++ [newE]) :=
      mem_manifest_of_file (by simp) hnf
    have hnone : mlookup newE.path (compute_manifest_from_files fs) = none := by
      apply mlookup_eq_none_of_not_mem
      rw [manifest_keys]
      intro hmem
      apply hnp
      rcases List.mem_map.mp hmem with ⟨x, hx, hxp⟩
      exact List.mem_map.mpr ⟨x, (List.mem_filter.mp hx).1, hxp⟩
    have hfalse : dictEq (compute_manifest_from_files fs)
        (compute_manifest_from_files (fs ++ [newE])) = false :=
      dictEq_eq_false_right hmemb (by rw [hnone]; simp)
    simp [needs_reindex, read_manifest, hfalse]
  · intro e he hf
    have hmem : (e.path, e.mtime) ∈ compute_manifest_from_files fs :=
      mem_manifest_of_file he hf
    have hnone : mlookup e.path
        (compute_manifest_from_files
          (fs.filter (fun x => x.path ≠ e.path))) = none := by
      apply mlookup_eq_none_of_not_mem
      rw [manifest_keys]
      intro hmem2
      rcases List.mem_map.mp hmem2 with ⟨x, hx, hxp⟩
      have hx2 := List.mem_filter.mp hx
      have hx3 := List.mem_filter.mp hx2.1
      have hxe : x.path ≠ e.path := by simpa using hx3.2
      exact hxe hxp
    have hfalse : dictEq (compute_manifest_from_files fs)
        (compute_manifest_from_files
          (fs.filter (fun x => x.path ≠ e.path))) = false :=
      dictEq_eq_false_left hmem (by rw [hnone]; simp)
    show (!dictEq (compute_manifest_from_files fs)
      (compute_manifest_from_files
        (fs.filter (fun x => x.path ≠ e.path)))) = true
    rw [hfalse]
    rfl

/-- Witness for the staleness-tracking theorem: a concrete one-file root
built with the identity splitter, then touched. -/
theorem needs_reindex_tracks_changes_witness :
    needs_reindex (.stored (compute_manifest_from_files fsOne)) fsOne = false ∧
    needs_reindex (.stored (compute_manifest_from_files fsOne))
      (setMtime fsOne "a.txt" 9) = true := by
  have h := needs_reindex_tracks_changes id true fsOne []
    (load_local_documents true fsOne) (compute_manifest_from_files fsOne)
    (by decide) rfl
  refine ⟨h.1, ?_⟩
  exact h.2.1 ⟨"a.txt", true, 5, txtData "hello"⟩ (by simp [fsOne]) rfl 9 (by decide)

/-- C4 counterexample: with an empty root a missing manifest does not force
a rebuild; `needs_reindex` returns false, not true as claimed. -/
theorem needs_reindex_missing_manifest_counterexample :
    needs_reindex ManifestFile.missing ([] : List FsEntry) = false := by decide

/-- C4 amended: a missing, unreadable or corrupt manifest is read as the
empty mapping (the total model reflects that `_read_manifest` catches every
exception, so `needs_reindex` never raises), and it forces a rebuild
provided the root holds at least one regular file. -/
theorem needs_reindex_missing_manifest (mf : ManifestFile) (fs : List FsEntry)
    (hmf : mf = ManifestFile.missing ∨ mf = ManifestFile.corrupt) :
    read_manifest mf = [] ∧
    (fs.filter (fun e => e.isFile) ≠ [] → needs_reindex mf fs = true) := by
  have hr : read_manifest mf = [] := by
    rcases hmf with h | h <;> simp [h, read_manifest]
  refine ⟨hr, fun hne => ?_⟩
  obtain ⟨e, rest, hfr⟩ : ∃ e rest, fs.filter (fun x => x.isFile) = e :: rest := by
    cases hc : fs.filter (fun x => x.isFile) with
    | nil => exact absurd hc hne
    | cons a b => exact ⟨a, b, rfl⟩
  have hkv : (e.path, e.mtime) ∈ compute_manifest_from_files fs := by
    simp [compute_manifest_from_files, hfr]
  have hfalse : dictEq [] (compute_manifest_from_files fs) = false :=
    dictEq_eq_false_right hkv (by simp [mlookup])
  simp [needs_reindex, hr, hfalse]

/-- Witness for the amended missing-manifest theorem on a one-file root. -/
theorem needs_reindex_missing_manifest_witness :
    read_manifest ManifestFile.missing = [] ∧
    needs_reindex ManifestFile.missing fsOne = true := by
  have h := needs_reindex_missing_manifest ManifestFile.missing fsOne (Or.inl rfl)
  exact ⟨h.1, h.2 (by simp [fsOne])⟩

/-- C1: a rebuild is wholesale-replacing and idempotent: `build_index` does
not depend on whatever index the persist directory previously held (no
incremental merge), and a second consecutive build over unchanged source
files, starting from the first build's index, produces an index equal to the
first in its (source, content) pairs and the same manifest. -/
theorem build_index_idempotent
    (split : List Document → List Document) (pdfAvail : Bool)
    (fs : List FsEntry) (prev next idx1 idx2 : List Document)
    (man1 man2 : List (String × Int))
    (h1 : build_index split pdfAvail fs prev = .ok (idx1, man1))
    (h2 : build_index split pdfAvail fs idx1 = .ok (idx2, man2)) :
    build_index split pdfAvail fs prev = build_index split pdfAvail fs next ∧
    idx2.map docPair = idx1.map docPair ∧ man2 = man1 := by
  have hrepl : ∀ a b : List Document,
      build_index split pdfAvail fs a = build_index split pdfAvail fs b :=
    fun a b => rfl
  have heq : (Except.ok (idx1, man1) :
      Except String (List Document × List (String × Int))) = .ok (idx2, man2) := by
    rw [← h1, hrepl prev idx1, h2]
  have hpair : idx1 = idx2 ∧ man1 = man2 := by
    simpa using Except.ok.inj heq
  exact ⟨hrepl prev next, by rw [hpair.1], hpair.2.symm⟩

/-- Witness for idempotent rebuild: the one-file root built twice, the
second time on top of the first index, with an unrelated previous index. -/
theorem build_index_idempotent_witness :
    build_index id true fsOne []
      = build_index id true fsOne [⟨"junk", "junk"⟩] ∧
    (load_local_documents true fsOne).map docPair
      = (load_local_documents true fsOne).map docPair ∧
    compute_manifest_from_files fsOne = compute_manifest_from_files fsOne :=
  build_index_idempotent id true fsOne [] [⟨"junk", "junk"⟩]
    (load_local_documents true fsOne) (load_local_documents true fsOne)
    (compute_manifest_from_files fsOne) (compute_manifest_from_files fsOne)
    rfl rfl

/-- C2: `load_or_build` goes straight to `build_index` when the persist
directory is absent or staleness is detected (a build exception propagating
raw); otherwise the primary constructor pattern, the alternate
embedding-keyword pattern and the embedding-free pattern are attempted in
that order, a full rebuild runs only when all three opens fail, and an
error is surfaced only when that rebuild also fails — the aggregate of all
four failures in order. -/
theorem load_or_build_fallback {H : Type} (env : LoadEnv H)
    (build : Except String H) (mf : ManifestFile) (fs : List FsEntry) :
    ((env.dirExists = false ∨ needs_reindex mf fs = true) →
      load_or_build env build mf fs = build.mapError LoadErr.raw) ∧
    (env.dirExists = true → needs_reindex mf fs = false →
      ((∀ h, env.openPrimary = .ok h → load_or_build env build mf fs = .ok h) ∧
       (∀ e1 h, env.openPrimary = .error e1 → env.openAlt = .ok h →
         load_or_build env build mf fs = .ok h) ∧
       (∀ e1 e2 h, env.openPrimary = .error e1 → env.openAlt = .error e2 →
         env.openNoEmbed = .ok h → load_or_build env build mf fs = .ok h) ∧
       (∀ e1 e2 e3 h, env.openPrimary = .error e1 → env.openAlt = .error e2 →
         env.openNoEmbed = .error e3 → build = .ok h →
         load_or_build env build mf fs = .ok h) ∧
       (∀ e1 e2 e3 e4, env.openPrimary = .error e1 → env.openAlt = .error e2 →
         env.openNoEmbed = .error e3 → build = .error e4 →
         load_or_build env build mf fs
           = .error (.aggregated [e1, e2, e3, e4])))) := by
  constructor
  · rintro (hd | hs)
    · simp [load_or_build, hd]
    · by_cases hd : env.dirExists = true
      · simp [load_or_build, hd, hs]
      · simp [load_or_build, Bool.eq_false_iff.mpr hd]
  · intro hd hs
    refine ⟨?_, ?_, ?_, ?_, ?_⟩ <;> intros <;>
      simp_all [load_or_build, hd, hs]

/-- Witness for the fallback chain: a concrete environment in which every
open attempt and the rebuild fail, yielding the aggregated error. -/
theorem load_or_build_fallback_witness :
    load_or_build
      (⟨true, .error "e1", .error "e2", .error "e3"⟩ : LoadEnv Nat)
      (.error "e4") (.stored (compute_manifest_from_files fsOne)) fsOne
      = .error (.aggregated ["e1", "e2", "e3", "e4"]) := by
  have h := load_or_build_fallback
    (⟨true, .error "e1", .error "e2", .error "e3"⟩ : LoadEnv Nat)
    (.error "e4") (.stored (compute_manifest_from_files fsOne)) fsOne
  exact (h.2 rfl (by decide)).2.2.2.2 "e1" "e2" "e3" "e4" rfl rfl rfl rfl

/-- C7: an empty root is a fatal build error — no empty index is produced —
while the splitter settings are loaded with no validation whatsoever: a
configured overlap equal to or exceeding the window size is accepted at
startup, the total `loadConfig` having no failure path. -/
theorem empty_root_fatal_overlap_unchecked
    (split : List Document → List Document) (pdfAvail : Bool)
    (prev : List Document) :
    build_index split pdfAvail [] prev
      = .error "No documents found to index. Add files in ./data/ and try again." ∧
    loadConfig (some 1000) (some 1000) = ⟨1000, 1000⟩ ∧
    loadConfig (some 1000) (some 1200) = ⟨1000, 1200⟩ :=
  ⟨rfl, rfl, rfl⟩

/-- C8: when reading the index metadata fails, the indexed-source diagnostic
degrades to the empty set while the source entries for the retrieved top-k
chunks are returned unchanged; the total model reflects that the exception
is swallowed, so a diagnostics failure never fails the query. -/
theorem query_tolerates_metadata_failure (retrieved : List Document)
    (filesR : Except Unit (List FsEntry)) (metas : List (Option String)) :
    (runQuery retrieved (.error ()) filesR).diag.all_sources = [] ∧
    (runQuery retrieved (.error ()) filesR).sources = retrieved.map sourceEntry ∧
    (runQuery retrieved (.error ()) filesR).sources
      = (runQuery retrieved (.ok metas) filesR).sources :=
  ⟨rfl, rfl, rfl⟩

/-- Insertion into a sorted list preserves the membership predicate. -/
theorem mem_insertSorted {s t : String} {l : List String} :
    t ∈ insertSorted s l ↔ t = s ∨ t ∈ l := by
  induction l with
  | nil => simp [insertSorted]
  | cons a rest ih =>
    by_cases h : strLt a s
    · simp only [insertSorted, if_pos h, List.mem_cons, ih]
      try tauto
    · simp only [insertSorted, if_neg h, List.mem_cons]
      try tauto

/-- Sorting preserves the membership predicate. -/
theorem mem_sortStrings {t : String} {l : List String} :
    t ∈ sortStrings l ↔ t ∈ l := by
  induction l with
  | nil => simp [sortStrings]
  | cons a rest ih =>
    simp [sortStrings, mem_insertSorted, ih]

/-- Every document produced for a file carries that file's path as source. -/
theorem extractOne_source {pa : Bool} {x : FsEntry} {d : Document}
    (h : extractOne pa x = some d) : d.source = x.path := by
  simp only [extractOne] at h
  by_cases h1 : lowerStr (pySuffix (pathName x.path)) = ".txt" ∨
      lowerStr (pySuffix (pathName x.path)) = ".md" ∨
      lowerStr (pySuffix (pathName x.path)) = ".html"
  · rw [if_pos h1] at h
    cases Option.some.inj h
    rfl
  · rw [if_neg h1] at h
    by_cases h2 : lowerStr (pySuffix (pathName x.path)) = ".pdf"
    · rw [if_pos h2] at h
      by_cases hp : pa = true
      · rw [if_pos hp] at h
        cases hx : x.data.pdf with
        | ok text =>
          rw [hx] at h
          dsimp only at h
          by_cases hlen : (strip text).length < 100
          · rw [if_pos hlen] at h
            cases h
          · rw [if_neg hlen] at h
            cases Option.some.inj h
            rfl
        | error msg =>
          rw [hx] at h
          dsimp only at h
          cases Option.some.inj h
          rfl
      · rw [if_neg hp] at h
        cases Option.some.inj h
        rfl
    · rw [if_neg h2] at h
      cases h

/-- C5 counterexample: in `fsShadow` the short-text y/a.pdf is excluded from
the Document set and enumerated in the root folder, yet the diagnostics do
not report it as present-but-unindexed, because the indexed x/a.pdf shares
its basename — the present-but-unindexed list is empty.  The index metadata
are exactly the sources of the documents the build of `fsShadow` stores. -/
theorem short_pdf_diag_counterexample :
    (load_local_documents true fsShadow).map (fun d => some d.source) = metaShadow ∧
    "y/a.pdf" ∉ (load_local_documents true fsShadow).map Document.source ∧
    pathName "y/a.pdf"
      ∈ (computeDiagnostics (.ok metaShadow) (.ok fsShadow)).data_files ∧
    pathName "y/a.pdf"
      ∉ (computeDiagnostics (.ok metaShadow) (.ok fsShadow)).no_text_files ∧
    (computeDiagnostics (.ok metaShadow) (.ok fsShadow)).no_text_files = [] := by
  refine ⟨rfl, by decide, by decide, by decide, by decide⟩

/-- C5 amended: a PDF whose stripped extracted text is under 100 characters
is excluded from the Document set (given distinct paths) yet its basename
appears in the root-folder enumeration, and the present-but-unindexed
diagnostic reports it provided no indexed source shares its basename. -/
theorem short_pdf_excluded_but_enumerated
    (fs : List FsEntry) (e : FsEntry) (text : String)
    (hnd : (fs.map (fun x => x.path)).Nodup)
    (he : e ∈ fs) (hf : e.isFile = true)
    (hsf : lowerStr (pySuffix (pathName e.path)) = ".pdf")
    (hok : e.data.pdf = .ok text) (hshort : (strip text).length < 100)
    (metas : List (Option String))
    (hnosrc : ∀ s ∈ metas.filterMap id, s ≠ "" → pathName s ≠ pathName e.path) :
    e.path ∉ (load_local_documents true fs).map Document.source ∧
    pathName e.path ∈ (computeDiagnostics (.ok metas) (.ok fs)).data_files ∧
    pathName e.path ∈ (computeDiagnostics (.ok metas) (.ok fs)).no_text_files := by
  have hskip : extractOne true e = none := by
    unfold extractOne
    rw [hsf]
    rw [if_neg (by decide), if_pos rfl, if_pos rfl, hok]
    simp [hshort]
  have hnotdoc : e.path ∉ (load_local_documents true fs).map Document.source := by
    intro hmem
    rcases List.mem_map.mp hmem with ⟨d, hd, hds⟩
    rcases List.mem_filterMap.mp hd with ⟨x, hx, hxd⟩
    have hxp : x.path = e.path := (extractOne_source hxd) ▸ hds
    have hxe : x = e := by
      have hxf := (List.mem_filter.mp hx).1
      exact List.inj_on_of_nodup_map hnd hxf he hxp
    rw [hxe, hskip] at hxd
    cases hxd
  have hdf : pathName e.path
      ∈ (computeDiagnostics (.ok metas) (.ok fs)).data_files := by
    show pathName e.path ∈ sortStrings
      ((fs.filter (fun x => x.isFile)).map (fun x => pathName x.path))
    exact mem_sortStrings.mpr
      (List.mem_map.mpr ⟨e, List.mem_filter.mpr ⟨he, hf⟩, rfl⟩)
  have hnotsrc : pathName e.path
      ∉ (computeDiagnostics (.ok metas) (.ok fs)).all_sources := by
    intro hmem
    have hmem2 := mem_sortStrings.mp hmem
    have hmem3 := List.mem_dedup.mp hmem2
    rcases List.mem_map.mp hmem3 with ⟨s, hsmem, hsp⟩
    have hs2 := List.mem_filter.mp hsmem
    have hs3 : s ≠ "" := by simpa using hs2.2
    exact hnosrc s hs2.1 hs3 hsp
  refine ⟨hnotdoc, hdf, ?_⟩
  show pathName e.path ∈
    (if ((computeDiagnostics (.ok metas) (.ok fs)).data_files).isEmpty then []
     else ((computeDiagnostics (.ok metas) (.ok fs)).data_files).filter
       (fun name => name ∉ (computeDiagnostics (.ok metas) (.ok fs)).all_sources))
  rw [if_neg (by
    intro hemp
    rw [List.isEmpty_iff] at hemp
    rw [hemp] at hdf
    cases hdf)]
  exact List.mem_filter.mpr ⟨hdf, by simpa using hnotsrc⟩

/-- Witness for the amended short-PDF theorem: one short scanned PDF beside
one text file, with the index metadata holding only the text file. -/
theorem short_pdf_excluded_but_enumerated_witness :
    "b.pdf" ∉ (load_local_documents true
      [⟨"a.txt", true, 1, txtData "hi"⟩,
       ⟨"b.pdf", true, 2, pdfData "short"⟩]).map Document.source ∧
    pathName "b.pdf" ∈ (computeDiagnostics (.ok [some "a.txt"])
      (.ok [⟨"a.txt", true, 1, txtData "hi"⟩,
            ⟨"b.pdf", true, 2, pdfData "short"⟩])).data_files ∧
    pathName "b.pdf" ∈ (computeDiagnostics (.ok [some "a.txt"])
      (.ok [⟨"a.txt", true, 1, txtData "hi"⟩,
            ⟨"b.pdf", true, 2, pdfData "short"⟩])).no_text_files := by
  have h := short_pdf_excluded_but_enumerated
    [⟨"a.txt", true, 1, txtData "hi"⟩, ⟨"b.pdf", true, 2, pdfData "short"⟩]
    ⟨"b.pdf", true, 2, pdfData "short"⟩ "short"
    (by decide) (by simp) rfl (by decide) rfl (by decide)
    [some "a.txt"] (by decide)
  exact h

/-- C6: extraction is per-file isolated: splitting the listing around any
one entry splits the produced documents accordingly, so a single file's
failure never aborts the pass; a PDF whose extraction raises yields a
placeholder document embedding the error message rather than an exception;
and a text-like file always yields a document, read as UTF-8 with latin-1
fallback on decode failure (the total model never raises for text files). -/
theorem extraction_failure_isolated (pdfAvail : Bool) :
    (∀ (fs1 fs2 : List FsEntry) (e : FsEntry),
      load_local_documents pdfAvail (fs1 ++ e :: fs2)
        = load_local_documents pdfAvail fs1 ++
            ((if e.isFile then (extractOne pdfAvail e).toList else []) ++
              load_local_documents pdfAvail fs2)) ∧
    (∀ e : FsEntry, lowerStr (pySuffix (pathName e.path)) = ".pdf" →
      ∀ msg, e.data.pdf = .error msg →
      extractOne true e
        = some ⟨"[Failed to extract PDF " ++ e.path ++ ": " ++ msg ++ "]",
            e.path⟩) ∧
    (∀ e : FsEntry,
      (lowerStr (pySuffix (pathName e.path)) = ".txt" ∨
       lowerStr (pySuffix (pathName e.path)) = ".md" ∨
       lowerStr (pySuffix (pathName e.path)) = ".html") →
      extractOne pdfAvail e = some ⟨e.data.utf8.getD e.data.latin1, e.path⟩) := by
  refine ⟨?_, ?_, ?_⟩
  · intro fs1 fs2 e
    simp only [load_local_documents, List.filter_append, List.filter_cons,
      List.filterMap_append]
    by_cases hf : e.isFile = true
    · simp only [hf, if_true]
      cases hx : extractOne pdfAvail e <;>
        simp [List.filterMap_cons, hx]
    · simp only [hf]
      simp [Bool.eq_false_iff.mpr hf]
  · intro e hsf msg hpdf
    simp only [extractOne]
    rw [hsf, if_neg (by decide), if_pos rfl, if_pos trivial, hpdf]
  · intro e hsf
    simp only [extractOne]
    rcases hsf with h | h | h <;>
      rw [h] <;> rw [if_pos (by simp)] <;> rfl

/-- Witness for extraction isolation: a failing PDF between a UTF-8 text
file and a markdown file whose bytes need the latin-1 fallback. -/
theorem extraction_failure_isolated_witness :
    load_local_documents true
        ([⟨"a.txt", true, 1, txtData "hello"⟩] ++
          ⟨"b.pdf", true, 2, ⟨none, "", .error "boom"⟩⟩ ::
            [⟨"c.md", true, 3, ⟨none, "fallback", .error "x"⟩⟩])
      = load_local_documents true [⟨"a.txt", true, 1, txtData "hello"⟩] ++
          ((if (⟨"b.pdf", true, 2, ⟨none, "", .error "boom"⟩⟩ : FsEntry).isFile
            then (extractOne true ⟨"b.pdf", true, 2, ⟨none, "", .error "boom"⟩⟩).toList
            else []) ++
            load_local_documents true
              [⟨"c.md", true, 3, ⟨none, "fallback", .error "x"⟩⟩]) ∧
    extractOne true ⟨"b.pdf", true, 2, ⟨none, "", .error "boom"⟩⟩
      = some ⟨"[Failed to extract PDF b.pdf: boom]", "b.pdf"⟩ ∧
    extractOne true ⟨"c.md", true, 3, ⟨none, "fallback", .error "x"⟩⟩
      = some ⟨"fallback", "c.md"⟩ := by
  have h := extraction_failure_isolated true
  refine ⟨h.1 [⟨"a.txt", true, 1, txtData "hello"⟩]
    [⟨"c.md", true, 3, ⟨none, "fallback", .error "x"⟩⟩]
    ⟨"b.pdf", true, 2, ⟨none, "", .error "boom"⟩⟩, ?_, ?_⟩
  · exact h.2.1 ⟨"b.pdf", true, 2, ⟨none, "", .error "boom"⟩⟩ (by decide) "boom" rfl
  · exact h.2.2 ⟨"c.md", true, 3, ⟨none, "fallback", .error "x"⟩⟩ (by decide)

/-- C9 counterexample: building `fsMixed` indexes only a.txt, yet the
manifest persisted by that build also carries an entry for b.png, which
produced no Document — the manifest key set is not the set of source files
that produced Documents. -/
theorem manifest_keys_counterexample :
    build_index id true fsMixed []
      = .ok ([⟨"hello", "a.txt"⟩], [("a.txt", 3), ("b.png", 4)]) ∧
    "b.png" ∈ (compute_manifest_from_files fsMixed).map Prod.fst ∧
    "b.png" ∉ (load_local_documents true fsMixed).map Document.source :=
  ⟨rfl, by decide, by decide⟩

/-- C9 amended: the manifest persisted by a successful build has exactly one
entry per regular file under the root — indexed or not — mapping its path
to its integer mtime: its key list is the filtered path list, and under
distinct paths lookup returns each regular file's mtime and nothing else. -/
theorem manifest_one_entry_per_file
    (split : List Document → List Document) (pdfAvail : Bool)
    (fs : List FsEntry) (prev idx : List Document) (man : List (String × Int))
    (hb : build_index split pdfAvail fs prev = .ok (idx, man))
    (hnd : ((fs.filter (fun e => e.isFile)).map (fun e => e.path)).Nodup) :
    man.map Prod.fst = (fs.filter (fun e => e.isFile)).map (fun e => e.path) ∧
    (∀ e ∈ fs, e.isFile = true → mlookup e.path man = some e.mtime) ∧
    (∀ p : String, p ∉ (fs.filter (fun e => e.isFile)).map (fun e => e.path) →
      mlookup p man = none) := by
  have hman := build_index_manifest hb
  subst hman
  refine ⟨manifest_keys fs, ?_, ?_⟩
  · intro e he hf
    exact mlookup_eq_some_of_mem (by rw [manifest_keys]; exact hnd)
      (mem_manifest_of_file he hf)
  · intro p hp
    exact mlookup_eq_none_of_not_mem (by rw [manifest_keys]; exact hp)

/-- Witness for the amended manifest theorem on the mixed two-file root. -/
theorem manifest_one_entry_per_file_witness :
    (compute_manifest_from_files fsMixed).map Prod.fst
      = (fsMixed.filter (fun e => e.isFile)).map (fun e => e.path) ∧
    mlookup "a.txt" (compute_manifest_from_files fsMixed) = some 3 := by
  have h := manifest_one_entry_per_file id true fsMixed []
    (load_local_documents true fsMixed) (compute_manifest_from_files fsMixed)
    rfl (by decide)
  exact ⟨h.1, h.2.1 ⟨"a.txt", true, 3, txtData "hello"⟩ (by simp [fsMixed]) rfl⟩

/-- C10: the unindexed-files diagnostic compares basenames only: whenever
some indexed metadata source shares the basename of a file under the root,
that file is conflated with the indexed one and omitted from the
present-but-unindexed list even though it still appears, by basename, in
the root enumeration. -/
theorem diag_conflates_basenames (metas : List (Option String))
    (fs : List FsEntry) (f : FsEntry) (s : String)
    (hf : f ∈ fs) (hfile : f.isFile = true)
    (hs : s ∈ metas.filterMap id) (hne : s ≠ "")
    (hbase : pathName s = pathName f.path) :
    pathName f.path ∈ (computeDiagnostics (.ok metas) (.ok fs)).data_files ∧
    pathName f.path ∉ (computeDiagnostics (.ok metas) (.ok fs)).no_text_files := by
  have hdf : pathName f.path
      ∈ (computeDiagnostics (.ok metas) (.ok fs)).data_files := by
    show pathName f.path ∈ sortStrings
      ((fs.filter (fun x => x.isFile)).map (fun x => pathName x.path))
    exact mem_sortStrings.mpr
      (List.mem_map.mpr ⟨f, List.mem_filter.mpr ⟨hf, hfile⟩, rfl⟩)
  have hsrc : pathName f.path
      ∈ (computeDiagnostics (.ok metas) (.ok fs)).all_sources := by
    show pathName f.path ∈ sortStrings
      ((((metas.filterMap id).filter (fun v => v ≠ "")).map pathName).dedup)
    refine mem_sortStrings.mpr (List.mem_dedup.mpr ?_)
    exact List.mem_map.mpr
      ⟨s, List.mem_filter.mpr ⟨hs, by simpa using hne⟩, hbase⟩
  refine ⟨hdf, ?_⟩
  intro hmem
  show False
  revert hmem
  show pathName f.path ∉
    (if ((computeDiagnostics (.ok metas) (.ok fs)).data_files).isEmpty then []
     else ((computeDiagnostics (.ok metas) (.ok fs)).data_files).filter
       (fun name => name ∉ (computeDiagnostics (.ok metas) (.ok fs)).all_sources))
  by_cases hemp : ((computeDiagnostics (.ok metas) (.ok fs)).data_files).isEmpty
  · rw [if_pos hemp]
    exact List.not_mem_nil _
  · rw [if_neg hemp]
    intro hmem
    have := (List.mem_filter.mp hmem).2
    simp only [decide_eq_true_eq] at this
    exact this hsrc

/-- Witness for basename conflation: the shadowed short PDF of `fsShadow`
is enumerated but omitted from the present-but-unindexed list. -/
theorem diag_conflates_basenames_witness :
    pathName "y/a.pdf"
      ∈ (computeDiagnostics (.ok metaShadow) (.ok fsShadow)).data_files ∧
    pathName "y/a.pdf"
      ∉ (computeDiagnostics (.ok metaShadow) (.ok fsShadow)).no_text_files := by
  have h := diag_conflates_basenames metaShadow fsShadow
    ⟨"y/a.pdf", true, 2, pdfData "short"⟩ "x/a.pdf"
    (by simp [fsShadow]) rfl (by simp [metaShadow]) (by decide) (by decide)
  exact h

end OfflineRag
